import Mathlib

/-!
Formal model of the smash-leaderboard match-video pipeline.

Each definition below is a direct translation of a Python function of the
repository: filename parsing and match reconciliation from
`bulk_upload_to_youtube.py`, result-screen extraction and match persistence
from `batch_process_videos.py`, and the upload coordinator from
`youtube_uploader.py`.  The theorems at the end of the file check the
documented behaviour of those functions.
-/

/-- Calendar timestamp as produced by `datetime.strptime` with format
`%Y%m%d_%H%M%S` (naive, second precision). -/
structure PyDateTime where
  year : Nat
  month : Nat
  day : Nat
  hour : Nat
  minute : Nat
  second : Nat
deriving DecidableEq

/-- Gregorian leap-year rule, as used by Python `datetime`. -/
def is_leap_year (y : Nat) : Bool :=
  (y % 4 = 0 && y % 100 ≠ 0) || y % 400 = 0

/-- Number of days in a month of a given year. -/
def days_in_month (y m : Nat) : Nat :=
  if m = 2 then (if is_leap_year y then 29 else 28)
  else if m = 4 || m = 6 || m = 9 || m = 11 then 30
  else 31

/-- Validity condition of `datetime.strptime` for a `%Y%m%d_%H%M%S` string:
an out-of-range field raises `ValueError` (either from the format regex or
from the `datetime` constructor). -/
def valid_datetime (dt : PyDateTime) : Bool :=
  1 ≤ dt.year && dt.year ≤ 9999 &&
  1 ≤ dt.month && dt.month ≤ 12 &&
  1 ≤ dt.day && dt.day ≤ days_in_month dt.year dt.month &&
  dt.hour ≤ 23 && dt.minute ≤ 59 && dt.second ≤ 59

/-- Value of a digit string, as computed by Python `int`. -/
def digits_to_nat (l : List Char) : Nat :=
  l.foldl (fun a c => a * 10 + (c.toNat - '0'.toNat)) 0

/-- Model of Python `base = filename.replace('.mp4', '')`: every occurrence
of the substring `.mp4` is removed, scanning left to right without overlap
(not only a trailing extension). -/
def strip_mp4 : List Char → List Char
  | '.' :: 'm' :: 'p' :: '4' :: rest => strip_mp4 rest
  | c :: rest => c :: strip_mp4 rest
  | [] => []

/-- Shape test for the regex `^\d{8}_\d{6}$` (pattern 2 of `parse_filename`,
and the second capture group of pattern 1). -/
def is_ts_shape (l : List Char) : Bool :=
  decide (l.length = 15) &&
  (l.take 8).all Char.isDigit &&
  decide (l.get? 8 = some '_') &&
  (l.drop 9).all Char.isDigit

/-- Shape test for the regex `^(\d+)-(\d{8}_\d{6})$`: since the second group
is exactly 15 characters long, the string matches exactly when the last 15
characters have timestamp shape, the character before them is a dash, and the
nonempty remainder in front consists of digits. -/
def pattern1_shape (l : List Char) : Bool :=
  decide (17 ≤ l.length) &&
  (l.take (l.length - 16)).all Char.isDigit &&
  decide (l.get? (l.length - 16) = some '-') &&
  is_ts_shape (l.drop (l.length - 15))

/-- Field extraction for a 15-character `YYYYMMDD_HHMMSS` string. -/
def parse_ts_fields (l : List Char) : PyDateTime :=
  { year := digits_to_nat (l.take 4)
    month := digits_to_nat ((l.drop 4).take 2)
    day := digits_to_nat ((l.drop 6).take 2)
    hour := digits_to_nat ((l.drop 9).take 2)
    minute := digits_to_nat ((l.drop 11).take 2)
    second := digits_to_nat ((l.drop 13).take 2) }

/-- Model of `datetime.strptime(s, "%Y%m%d_%H%M%S")` on a string of
timestamp shape: `none` models the `ValueError` raised on an invalid
calendar or clock field. -/
def strptime_ts (l : List Char) : Option PyDateTime :=
  let dt := parse_ts_fields l
  if valid_datetime dt then some dt else none

/-- Outcome of `BulkUploader.parse_filename`.  `valueError` models the
uncaught exception from `strptime` propagating out of the function. -/
inductive ParseResult
  | parsed (match_id : Option Int) (ts : PyDateTime)
  | unparseable
  | valueError
deriving DecidableEq

/-- Model of `BulkUploader.parse_filename`: strip `.mp4`, try
`^(\d+)-(\d{8}_\d{6})$`, then `^(\d{8}_\d{6})$`, else return `None`
(modelled as `unparseable`). -/
def parse_filename (filename : String) : ParseResult :=
  let base := strip_mp4 filename.data
  if pattern1_shape base then
    match strptime_ts (base.drop (base.length - 15)) with
    | some dt => .parsed (some (digits_to_nat (base.take (base.length - 16)) : Int)) dt
    | none => .valueError
  else if is_ts_shape base then
    match strptime_ts base with
    | some dt => .parsed none dt
    | none => .valueError
  else .unparseable

example : parse_filename "42-20240115_143052.mp4" =
    .parsed (some 42) ⟨2024, 1, 15, 14, 30, 52⟩ := by decide

example : parse_filename "20240115_143052.mp4" =
    .parsed none ⟨2024, 1, 15, 14, 30, 52⟩ := by decide

example : parse_filename "notaname.mp4" = .unparseable := by decide

example : parse_filename "2024.mp40115_143052.mp4" =
    .parsed none ⟨2024, 1, 15, 14, 30, 52⟩ := by decide

/-- Database row of the `matches` table, restricted to the fields the
uploader reads and writes.  `created_at` is the authoritative timestamp in
seconds since the Unix epoch (UTC). -/
structure MatchRow where
  id : Int
  created_at : Rat
  youtube_url : Option String
deriving DecidableEq

/-- Model of Python `min(xs, key=key)`: the first element attaining the
minimal key (later elements replace the current best only on a strictly
smaller key). -/
def py_min_by {α : Type} (key : α → Rat) (x : α) (xs : List α) : α :=
  xs.foldl (fun best m => if key m < key best then m else best) x

/-- Days from 1970-01-01 of a Gregorian civil date (Hinnant's algorithm),
used to model `datetime.timestamp` arithmetic. -/
def days_from_civil (y m d : Int) : Int :=
  let y := if m ≤ 2 then y - 1 else y
  let era := (if 0 ≤ y then y else y - 399) / 400
  let yoe := y - era * 400
  let doy := (153 * ((m + 9) % 12) + 2) / 5 + d - 1
  let doe := yoe * 365 + yoe / 4 - yoe / 100 + doy
  era * 146097 + doe - 719468

/-- Seconds since the Unix epoch of a naive timestamp read as UTC, as done
by `timestamp.replace(tzinfo=pytz.UTC)` in `find_match_by_timestamp`. -/
def to_epoch_seconds (dt : PyDateTime) : Int :=
  days_from_civil dt.year dt.month dt.day * 86400 +
    dt.hour * 3600 + dt.minute * 60 + dt.second

/-- Model of `BulkUploader.find_match_by_timestamp`: the store query keeps
the rows whose `created_at` lies within ± 5 seconds of the probe (in query
order); a single candidate is returned directly, several candidates go
through `min` keyed by absolute time delta. -/
def find_match_by_timestamp (db : List MatchRow) (probe : Rat) : Option MatchRow :=
  let cands := db.filter fun m =>
    decide (probe - 5 ≤ m.created_at) && decide (m.created_at ≤ probe + 5)
  match cands with
  | [] => none
  | [m] => some m
  | m :: rest => some (py_min_by (fun r => |r.created_at - probe|) m rest)

/-- Model of `BulkUploader.is_already_uploaded`: true exactly when the row
fetched by identifier carries a non-null, non-empty `youtube_url`. -/
def is_already_uploaded (db : List MatchRow) (match_id : Option Int) : Bool :=
  match match_id with
  | none => false
  | some i =>
    match db.find? (fun m => decide (m.id = i)) with
    | some m =>
      match m.youtube_url with
      | some u => decide (u ≠ "")
      | none => false
    | none => false

/-- Model of `BulkUploader.save_youtube_url`: update the `youtube_url`
field of the rows with the given identifier. -/
def save_youtube_url (db : List MatchRow) (i : Int) (url : String) : List MatchRow :=
  db.map fun m => if m.id = i then { m with youtube_url := some url } else m

/-- URL built by `YouTubeUploader.upload_video` from the video identifier
returned by the transfer. -/
def youtube_url_of (video_id : String) : String :=
  "https://www.youtube.com/watch?v=" ++ video_id

/-- Record resolution step of `BulkUploader.process_video`: a match id from
the filename is fetched directly, otherwise the store is probed by
timestamp. -/
def resolve_record (db : List MatchRow) (mid : Option Int) (ts : PyDateTime) :
    Option MatchRow :=
  match mid with
  | some i => db.find? (fun m => decide (m.id = i))
  | none => find_match_by_timestamp db (to_epoch_seconds ts : Rat)

/-- Observable outcome of one `BulkUploader.process_video` call:
the number of `upload_video` calls performed, the store after the call, the
boolean the function returns, and whether an exception escaped. -/
structure BulkRun where
  upload_calls : Nat
  db : List MatchRow
  returned : Bool
  raised : Bool
deriving DecidableEq

/-- Model of `BulkUploader.process_video` (with the metadata construction,
which reads but never writes the store, elided).  `upload_result` is the
video identifier returned by `upload_video`, `none` on upload failure.  The
local timezone used by `timestamp.timestamp()` for legacy pseudo-ids is
modelled as UTC; no claim depends on that branch. -/
def bulk_process_video (db : List MatchRow) (filename : String)
    (upload_result : Option String) (dry_run skip_uploaded : Bool) : BulkRun :=
  match parse_filename filename with
  | .valueError => ⟨0, db, false, true⟩
  | .unparseable => ⟨0, db, false, false⟩
  | .parsed mid ts =>
    let match_record : Option MatchRow := resolve_record db mid ts
    let match_id : Option Int :=
      match mid with
      | some i => some i
      | none =>
        match match_record with
        | some r => some r.id
        | none => none
    let match_id_truthy : Bool :=
      match match_id with
      | some i => decide (i ≠ 0)
      | none => false
    if skip_uploaded && match_id_truthy && is_already_uploaded db match_id then
      ⟨0, db, false, false⟩
    else
      let match_id : Int :=
        match match_id with
        | some i => i
        | none => to_epoch_seconds ts
      if dry_run then ⟨0, db, true, false⟩
      else
        match upload_result with
        | some vid =>
          let url := youtube_url_of vid
          let db' :=
            match match_record with
            | some _ => save_youtube_url db match_id url
            | none => db
          ⟨1, db', true, false⟩
        | none => ⟨1, db, false, false⟩

/-- Memory cap of the frame window in `extract_result_screen`
(`max_frames = 3600`). -/
def max_frames : Nat := 3600

/-- Confidence threshold for game-end detection
(`game_end_confidence_threshold = 0.7`, written as the rational 7/10). -/
def game_end_confidence_threshold : Rat := mkRat 7 10

/-- One insertion into the bounded frame window of
`extract_result_screen`: append the new sample, then, when the window
exceeds `max_frames`, drop the oldest chunk of
`min(50, len(frames) // 4)` samples. -/
def window_insert {α : Type} (w : List α) (x : α) : List α :=
  let w' := w ++ [x]
  if max_frames < w'.length then w'.drop (min 50 (w'.length / 4)) else w'

/-- Window contents after a sequence of insertions, starting empty. -/
def window_of_list {α : Type} (xs : List α) : List α :=
  xs.foldl window_insert []

/-- Break condition of the backward scan in `extract_result_screen`:
`confidence >= threshold and confidence > best_confidence`, where
`best_confidence` is still `0.0` at the only comparison the loop can reach
(it breaks at its first hit). -/
def qualifies (c : Rat) : Bool :=
  game_end_confidence_threshold ≤ c && 0 < c

/-- Backward boundary search over the stored scores, expressed structurally:
a hit in the tail (a larger index) takes precedence over the head, which is
exactly what the source loop's break-at-first-hit delivers when walking
from the last index toward the first. -/
def scan_back : List Rat → Option Nat
  | [] => none
  | c :: rest =>
    match scan_back rest with
    | some i => some (i + 1)
    | none => if qualifies c then some 0 else none

/-- Selection part of `BatchVideoProcessor.extract_result_screen`, a pure
function of the stored frame/score window: empty window, no qualifying
score, and a qualifying suffix shorter than 15 samples all return the same
sentinel `none` (the Python `(None, None, None)`); a long-enough suffix from
the boundary to the end is returned on success. -/
def extract_result_screen {α : Type} (frames : List α) (scores : List Rat) :
    Option (List α) :=
  if frames.isEmpty || scores.isEmpty then none
  else
    match scan_back scores with
    | none => none
    | some i =>
      let result := frames.drop i
      if result.length < 15 then none else some result

/-- Return value of one `BatchVideoProcessor.process_video` call as seen by
`process_all`: `True`, `False`, or an escaped exception. -/
inductive PVOutcome
  | ok
  | skip
  | err
deriving DecidableEq

/-- Per-file tallying loop of `BatchVideoProcessor.process_all`:
`True` increments `processed_count`, `False` increments `skipped_count`,
an exception increments `failed_count`. -/
def process_all_counts (l : List PVOutcome) : Nat × Nat × Nat :=
  l.foldl
    (fun c o =>
      match o with
      | .ok => (c.1 + 1, c.2.1, c.2.2)
      | .skip => (c.1, c.2.1 + 1, c.2.2)
      | .err => (c.1, c.2.1, c.2.2 + 1))
    (0, 0, 0)

/-- Participant record extracted by the stats collaborator
(`PlayerStats` pydantic model of `batch_process_videos.py`). -/
structure PStats where
  is_online_match : Bool
  smash_character : String
  player_name : String
  is_cpu : Bool
  total_kos : Int
  total_falls : Int
  total_sds : Int
  has_won : Bool
deriving DecidableEq

/-- Nonempty all-digit string, the `\d+` of the generic-name regexes. -/
def digits1 (l : List Char) : Bool :=
  !l.isEmpty && l.all Char.isDigit

/-- Test of `save_match_stats` for placeholder player names: full match of
`^Player \d+$`, `^P\d+$` or `^P \d+$`. -/
def matches_generic_name (s : String) : Bool :=
  let cs := s.data
  (cs.take 7 = "Player ".data && digits1 (cs.drop 7)) ||
  (cs.take 1 = "P".data && digits1 (cs.drop 1)) ||
  (cs.take 2 = "P ".data && digits1 (cs.drop 2))

/-- Database effects of one `save_match_stats` call: whether a match row
was created, how many participant rows were inserted, and how many player
rating updates were issued. -/
structure SaveEffects where
  match_created : Bool
  participant_rows : Nat
  rating_updates : Nat
deriving DecidableEq

/-- Effects of a call that wrote nothing. -/
def no_effects : SaveEffects := ⟨false, 0, 0⟩

/-- Model of `BatchVideoProcessor.save_match_stats`.  The guards are
translated in source order: a no-contest match (nobody has `has_won`), a
match with a CPU participant, a placeholder player name, or a first
participant marked online each abort with `False` before any store write.
`create_ok` models the `create_match` insert succeeding; `get_player` and
the participant inserts are modelled as succeeding.  On the success path one
participant row is written per stat and, for a 1v1 match, two rating
updates are issued. -/
def save_match_stats (create_ok : Bool) (stats : List PStats) :
    Bool × SaveEffects :=
  if stats.all (fun s => !s.has_won) then (false, no_effects)
  else if stats.any (fun s => s.is_cpu) then (false, no_effects)
  else if stats.any (fun s => matches_generic_name s.player_name) then
    (false, no_effects)
  else if (match stats.head? with
           | some s => s.is_online_match
           | none => false) then (false, no_effects)
  else if !create_ok then (false, no_effects)
  else
    (true, ⟨true, stats.length, if stats.length = 2 then 2 else 0⟩)

/-- Everything `BatchVideoProcessor.process_video` observes about one file:
whether an exception escapes, the extraction result, whether the result
video could be written, the stats-extraction response, and whether
`create_match` succeeds inside `save_match_stats`. -/
structure VideoBehavior where
  raises : Bool
  extraction : Option (List Nat)
  create_video_ok : Bool
  stats : Option (List PStats)
  create_match_ok : Bool

/-- Return value of `BatchVideoProcessor.process_video` (dry runs return
`True`; a failed extraction, encode, stats call or database save each
return `False` in source order). -/
def batch_process_video (dry_run : Bool) (b : VideoBehavior) : Bool :=
  if dry_run then true
  else
    match b.extraction with
    | none => false
    | some _ =>
      if !b.create_video_ok then false
      else
        match b.stats with
        | none => false
        | some stats =>
          if stats.isEmpty then false
          else (save_match_stats b.create_match_ok stats).1

/-- Outcome of one file inside `process_all`: an escaped exception counts
as failed, otherwise the boolean from `process_video` decides between
processed and skipped. -/
def video_outcome (dry_run : Bool) (b : VideoBehavior) : PVOutcome :=
  if b.raises then .err
  else if batch_process_video dry_run b then .ok
  else .skip

/-- Batch summary of `BatchVideoProcessor.process_all` over a directory. -/
def process_all (dry_run : Bool) (vids : List VideoBehavior) : Nat × Nat × Nat :=
  process_all_counts (vids.map (video_outcome dry_run))

/-- Model of Python `str.title()`: the first letter of every alphabetic run
is upper-cased, the following letters are lower-cased. -/
def py_title_aux : Bool → List Char → List Char
  | _, [] => []
  | prev_alpha, c :: rest =>
    if c.isAlpha then
      (if prev_alpha then c.toLower else c.toUpper) :: py_title_aux true rest
    else
      c :: py_title_aux false rest

/-- Python `str.title()` on a string. -/
def py_title (s : String) : String :=
  ⟨py_title_aux false s.data⟩

/-- Participant entry of the metadata dictionary handed to the uploader
(name and character; the stat counters do not influence the title). -/
structure TitlePlayer where
  name : String
  character : String
deriving DecidableEq

/-- Metadata dictionary handed to `YouTubeUploader.build_title`. -/
structure TitleMeta where
  players : List TitlePlayer
  timestamp : PyDateTime
deriving DecidableEq

/-- Two-digit zero-padded decimal field of `strftime`. -/
def pad2 (n : Nat) : String :=
  if n < 10 then "0" ++ toString n else toString n

/-- Four-digit zero-padded year field of `strftime`. -/
def pad4 (n : Nat) : String :=
  if n < 10 then "000" ++ toString n
  else if n < 100 then "00" ++ toString n
  else if n < 1000 then "0" ++ toString n
  else toString n

/-- Model of `timestamp.strftime("%Y-%m-%d %H:%M")`. -/
def strftime_ymdhm (dt : PyDateTime) : String :=
  pad4 dt.year ++ "-" ++ pad2 dt.month ++ "-" ++ pad2 dt.day ++ " " ++
    pad2 dt.hour ++ ":" ++ pad2 dt.minute

/-- Timestamp-based fallback title of `build_title`. -/
def fallback_title (match_id : Int) (md : TitleMeta) : String :=
  "Match #" ++ toString match_id ++ " - " ++ strftime_ymdhm md.timestamp

/-- Model of `YouTubeUploader.build_title`: with two or more players whose
names and title-cased characters are all non-empty, the first two players
build the versus title; every other case falls back to the timestamp-based
title. -/
def build_title (match_id : Int) (md : TitleMeta) : String :=
  match md.players with
  | p1 :: p2 :: _ =>
    let c1 := py_title p1.character
    let c2 := py_title p2.character
    if p1.name ≠ "" && p2.name ≠ "" && c1 ≠ "" && c2 ≠ "" then
      p1.name ++ " (" ++ c1 ++ ") vs " ++ p2.name ++ " (" ++ c2 ++
        ") - Match #" ++ toString match_id
    else fallback_title match_id md
  | _ => fallback_title match_id md

/-- Process-scoped state of `YouTubeUploader`: the daily upload counter and
the local date of its last reset. -/
structure UploaderState where
  daily_upload_count : Nat
  last_reset_date : Int
deriving DecidableEq

/-- Model of `YouTubeUploader.check_quota_available`: on a new local date
the counter is reset to zero, and the gate refuses once the counter has
reached 5. -/
def check_quota_available (today : Int) (st : UploaderState) :
    UploaderState × Bool :=
  let st := if today ≠ st.last_reset_date then ⟨0, today⟩ else st
  if 5 ≤ st.daily_upload_count then (st, false) else (st, true)

/-- Result of the transfer request issued by `upload_video`: a video
identifier, or any of the failure paths (no/bad response, quota error,
exception), all of which return `None` without incrementing the counter. -/
inductive TransferResult
  | ok (video_id : String)
  | err
deriving DecidableEq

/-- Observable outcome of one `YouTubeUploader.upload_video` call: final
counter state, returned URL, and how many transfer requests were issued. -/
structure UploadRun where
  st : UploaderState
  url : Option String
  transfer_calls : Nat
deriving DecidableEq

/-- Model of `YouTubeUploader.upload_video` around the quota gate: a
missing file, a refused quota gate, or a failed authentication each return
`None` before any transfer; otherwise one transfer is issued and the daily
counter is incremented exactly on success. -/
def yt_upload_video (today : Int) (file_present auth_ok : Bool)
    (transfer : TransferResult) (st : UploaderState) : UploadRun :=
  if !file_present then ⟨st, none, 0⟩
  else
    let r := check_quota_available today st
    if !r.2 then ⟨r.1, none, 0⟩
    else if !auth_ok then ⟨r.1, none, 0⟩
    else
      match transfer with
      | .ok vid =>
        ⟨⟨r.1.daily_upload_count + 1, r.1.last_reset_date⟩,
          some (youtube_url_of vid), 1⟩
      | .err => ⟨r.1, none, 1⟩

/-- One call of `request.next_chunk()` inside `_resumable_upload`: a
response (with or without an `id` field), an `HttpError` with a status
code, or any other exception. -/
inductive ChunkOutcome
  | ok (has_id : Bool)
  | httpError (status : Nat)
  | otherError
deriving DecidableEq

/-- Status codes `_resumable_upload` treats as retriable:
`[500, 502, 503, 504]`. -/
def is_retriable_status (s : Nat) : Bool :=
  s = 500 || s = 502 || s = 503 || s = 504

/-- Terminal outcome of `_resumable_upload`.  `raised` models the re-raised
`HttpError` (caught by `upload_video`, which fails the job without another
attempt); `incomplete` is the artifact of running out of scripted chunk
outcomes. -/
inductive RUOutcome
  | success
  | badResponse
  | maxRetries
  | raised (status : Nat)
  | incomplete
deriving DecidableEq

/-- Model of `YouTubeUploader._resumable_upload` on a script of chunk
outcomes, carrying the current `retry` counter.  Returns the terminal
outcome, the number of `next_chunk` attempts consumed, and the list of
maximal backoff sleeps (`2 ** retry` seconds, each multiplied in the code
by a fresh `random.random()` draw): a retriable error increments `retry`,
gives up past `max_retries = 3`, and otherwise sleeps and loops; a
non-retriable `HttpError` is re-raised at once. -/
def resumable_upload : List ChunkOutcome → Nat → RUOutcome × Nat × List Nat
  | [], _ => (.incomplete, 0, [])
  | .ok true :: _, _ => (.success, 1, [])
  | .ok false :: _, _ => (.badResponse, 1, [])
  | .httpError s :: rest, retry =>
    if is_retriable_status s then
      if 3 < retry + 1 then (.maxRetries, 1, [])
      else
        let r := resumable_upload rest (retry + 1)
        (r.1, r.2.1 + 1, 2 ^ (retry + 1) :: r.2.2)
    else (.raised s, 1, [])
  | .otherError :: rest, retry =>
    if 3 < retry + 1 then (.maxRetries, 1, [])
    else
      let r := resumable_upload rest (retry + 1)
      (r.1, r.2.1 + 1, 2 ^ (retry + 1) :: r.2.2)

theorem window_insert_length_le {α : Type} (w : List α) (x : α)
    (h : w.length ≤ max_frames) : (window_insert w x).length ≤ max_frames := by
  unfold window_insert
  by_cases hc : max_frames < (w ++ [x]).length
  · rw [if_pos hc, List.length_drop]
    have hl : (w ++ [x]).length = 3601 := by
      simp only [List.length_append, List.length_cons, List.length_nil] at hc ⊢
      unfold max_frames at h hc
      omega
    rw [hl]
    decide
  · rw [if_neg hc]
    exact Nat.not_lt.mp hc

theorem window_insert_suffix {α : Type} {w ys : List α} (x : α)
    (h : w <:+ ys) : window_insert w x <:+ ys ++ [x] := by
  have h1 : w ++ [x] <:+ ys ++ [x] := by
    obtain ⟨t, ht⟩ := h
    exact ⟨t, by rw [← List.append_assoc, ht]⟩
  unfold window_insert
  by_cases hc : max_frames < (w ++ [x]).length
  · rw [if_pos hc]
    exact (List.drop_suffix _ _).trans h1
  · rw [if_neg hc]
    exact h1

theorem window_foldl_invariant {α : Type} (xs : List α) :
    ∀ w ys : List α, w.length ≤ max_frames → w <:+ ys →
      (xs.foldl window_insert w).length ≤ max_frames ∧
        xs.foldl window_insert w <:+ ys ++ xs := by
  induction xs with
  | nil =>
    intro w ys h1 h2
    simpa using ⟨h1, h2⟩
  | cons x xs ih =>
    intro w ys h1 h2
    have step := ih (window_insert w x) (ys ++ [x])
      (window_insert_length_le w x h1) (window_insert_suffix x h2)
    simpa [List.append_assoc] using step

/-- C3: every insertion into the bounded frame window of
`extract_result_screen` keeps the window size at or below the capacity
3600; the window contents are always a contiguous suffix of the inserted
sample sequence (order and recency preserved, up to chunk-eviction
granularity); and an insertion that overflows the capacity drops the
oldest chunk of `min(50, size / 4)` samples from the front. -/
theorem claim_C3_sample_window {α : Type} (xs : List α) :
    (window_of_list xs).length ≤ 3600 ∧
    window_of_list xs <:+ xs ∧
    (∀ (w : List α) (x : α), 3600 < (w ++ [x]).length →
      window_insert w x = (w ++ [x]).drop (min 50 ((w ++ [x]).length / 4))) := by
  have base := window_foldl_invariant xs [] [] (by simp [max_frames]) ⟨[], rfl⟩
  refine ⟨base.1, by simpa using base.2, ?_⟩
  intro w x h
  unfold window_insert
  rw [if_pos (by simpa [max_frames] using h)]

/-- Witness for C3 at a concrete overflowing window. -/
theorem claim_C3_sample_window_witness :
    3600 < ((List.replicate 3600 (0 : Nat)) ++ [0]).length ∧
    window_insert (List.replicate 3600 (0 : Nat)) 0 =
      ((List.replicate 3600 (0 : Nat)) ++ [0]).drop
        (min 50 (((List.replicate 3600 (0 : Nat)) ++ [0]).length / 4)) := by
  have h : 3600 < ((List.replicate 3600 (0 : Nat)) ++ [0]).length := by
    simp only [List.length_append, List.length_replicate, List.length_cons,
      List.length_nil]
    omega
  exact ⟨h, (claim_C3_sample_window ([] : List Nat)).2.2 _ 0 h⟩

/-- C7: the process-scoped daily counter never permits starting a new
upload once 5 uploads have been counted on the same local date (the job
returns failure with zero transfer requests and an unchanged counter); the
counter is incremented exactly on each successful upload; and the counter
resets to 0 on a local-date rollover. -/
theorem claim_C7_daily_quota :
    (∀ (today : Int) (fp ao : Bool) (tr : TransferResult) (st : UploaderState),
      st.last_reset_date = today → 5 ≤ st.daily_upload_count →
        yt_upload_video today fp ao tr st = ⟨st, none, 0⟩) ∧
    (∀ (today : Int) (fp ao : Bool) (tr : TransferResult) (st : UploaderState)
        (u : String),
      (yt_upload_video today fp ao tr st).url = some u →
        (yt_upload_video today fp ao tr st).st.daily_upload_count =
          (check_quota_available today st).1.daily_upload_count + 1) ∧
    (∀ (today : Int) (st : UploaderState), today ≠ st.last_reset_date →
      check_quota_available today st = (⟨0, today⟩, true)) := by
  refine ⟨?_, ?_, ?_⟩
  · intro today fp ao tr st h1 h2
    subst h1
    cases fp <;> simp [yt_upload_video, check_quota_available, h2]
  · intro today fp ao tr st u h
    cases fp with
    | false => simp [yt_upload_video] at h
    | true =>
      cases hq : (check_quota_available today st).2 with
      | false => simp [yt_upload_video, hq] at h
      | true =>
        cases ao with
        | false => simp [yt_upload_video, hq] at h
        | true =>
          cases tr with
          | ok vid => simp [yt_upload_video, hq]
          | err => simp [yt_upload_video, hq] at h
  · intro today st h
    simp [check_quota_available, h]

/-- Witness for C7: a saturated counter defers the job, a successful upload
increments the counter, and a date change resets it. -/
theorem claim_C7_daily_quota_witness :
    ((⟨5, 0⟩ : UploaderState).last_reset_date = 0 ∧
      5 ≤ (⟨5, 0⟩ : UploaderState).daily_upload_count ∧
      yt_upload_video 0 true true (.ok "v") ⟨5, 0⟩ = ⟨⟨5, 0⟩, none, 0⟩) ∧
    ((yt_upload_video 1 true true (.ok "v") ⟨5, 0⟩).url =
        some (youtube_url_of "v") ∧
      (yt_upload_video 1 true true (.ok "v") ⟨5, 0⟩).st.daily_upload_count =
        (check_quota_available 1 ⟨5, 0⟩).1.daily_upload_count + 1) ∧
    ((1 : Int) ≠ (⟨5, 0⟩ : UploaderState).last_reset_date ∧
      check_quota_available 1 ⟨5, 0⟩ = (⟨0, 1⟩, true)) := by
  refine ⟨⟨rfl, by decide, claim_C7_daily_quota.1 0 true true (.ok "v") ⟨5, 0⟩ rfl (by decide)⟩,
    ⟨by decide, claim_C7_daily_quota.2.1 1 true true (.ok "v") ⟨5, 0⟩
      (youtube_url_of "v") (by decide)⟩,
    ⟨by decide, claim_C7_daily_quota.2.2 1 ⟨5, 0⟩ (by decide)⟩⟩

theorem resumable_upload_attempts_le (outcomes : List ChunkOutcome) :
    ∀ retry : Nat, retry ≤ 3 →
      (resumable_upload outcomes retry).2.1 ≤ 4 - retry := by
  induction outcomes with
  | nil =>
    intro retry h
    simp [resumable_upload]
  | cons o rest ih =>
    intro retry h
    cases o with
    | ok b =>
      cases b <;> simp [resumable_upload] <;> omega
    | httpError s =>
      cases hs : is_retriable_status s with
      | false => simp [resumable_upload, hs]; omega
      | true =>
        by_cases h4 : 3 < retry + 1
        · simp [resumable_upload, hs, h4]
          omega
        · have hr := ih (retry + 1) (by omega)
          simp [resumable_upload, hs, h4]
          omega
    | otherError =>
      by_cases h4 : 3 < retry + 1
      · simp [resumable_upload, h4]
        omega
      · have hr := ih (retry + 1) (by omega)
        simp [resumable_upload, h4]
        omega

/-- C4 (amended): for every upload job, the statuses the code treats as
transient are exactly 500, 502, 503 and 504 plus non-HTTP exceptions —
not every HTTP 5xx.  Such errors are retried up to the fixed bound of 3
retries with backoff `sleep = random(0,1) * 2 ^ attempt` seconds (the
recorded values are the `2 ^ attempt` maxima); any other `HttpError`,
including 4xx permission/quota errors, is re-raised at once, failing the
job without a retry.  Two transient failures followed by success give
exactly 3 attempts and one success; four consecutive transient failures
give terminal failure after exactly the retry bound, i.e. 4 attempts;
no run makes more than 4 attempts. -/
theorem claim_C4_retry_policy :
    resumable_upload [.httpError 500, .otherError, .ok true] 0 =
      (.success, 3, [2, 4]) ∧
    resumable_upload
        [.httpError 503, .otherError, .httpError 502, .httpError 504] 0 =
      (.maxRetries, 4, [2, 4, 8]) ∧
    (∀ (s : Nat) (rest : List ChunkOutcome) (retry : Nat),
      is_retriable_status s = false →
        resumable_upload (.httpError s :: rest) retry = (.raised s, 1, [])) ∧
    (∀ outcomes : List ChunkOutcome, (resumable_upload outcomes 0).2.1 ≤ 4) := by
  refine ⟨by decide, by decide, ?_, ?_⟩
  · intro s rest retry h
    simp [resumable_upload, h]
  · intro outcomes
    simpa using resumable_upload_attempts_le outcomes 0 (by omega)

/-- Witness for C4: a 403 permission error is not retriable and fails in a
single attempt with no backoff sleep. -/
theorem claim_C4_retry_policy_witness :
    is_retriable_status 403 = false ∧
    resumable_upload [.httpError 403] 0 = (.raised 403, 1, []) :=
  ⟨by decide, claim_C4_retry_policy.2.2.1 403 [] 0 (by decide)⟩

/-- Counterexample to C4 as stated: HTTP 501 is a server 5xx error, yet
`_resumable_upload` re-raises it immediately — one attempt, no backoff —
instead of retrying and succeeding on the next chunk call as the claimed
policy (all 5xx transient) would demand. -/
theorem claim_C4_counterexample :
    resumable_upload [.httpError 501, .ok true] 0 = (.raised 501, 1, []) ∧
    resumable_upload [.httpError 501, .ok true] 0 ≠ (.success, 2, [2]) := by
  decide

/-- Disjunction of the four skip conditions of `save_match_stats`: a
no-contest match, a CPU participant, a placeholder player name, or a first
participant flagged as online. -/
def save_guard (stats : List PStats) : Bool :=
  stats.all (fun s => !s.has_won) ||
  stats.any (fun s => s.is_cpu) ||
  stats.any (fun s => matches_generic_name s.player_name) ||
  (match stats.head? with
   | some s => s.is_online_match
   | none => false)

/-- C10: whenever any of the four skip conditions holds — every participant
has `has_won` false, some participant is a CPU, some participant name
matches `Player N`, `PN` or `P N`, or the first participant is flagged as
an online match — `save_match_stats` returns `False` and writes nothing
(no match row, no participant rows, no rating update); conversely a match
row is created only when none of the conditions hold. -/
theorem claim_C10_save_guards (create_ok : Bool) (stats : List PStats) :
    (save_guard stats = true →
      save_match_stats create_ok stats = (false, no_effects)) ∧
    ((save_match_stats create_ok stats).2.match_created = true →
      save_guard stats = false) := by
  constructor
  · intro h
    unfold save_match_stats
    split_ifs with h1 h2 h3 h4 h5 h6 <;>
      first
      | rfl
      | (exfalso
         unfold save_guard at h
         simp only [Bool.or_eq_true] at h
         rcases h with (((ha | hb) | hc) | hd)
         · exact h1 ha
         · exact h2 hb
         · exact h3 hc
         · exact h4 hd)
  · intro h
    unfold save_match_stats at h
    split_ifs at h with h1 h2 h3 h4 h5 h6 <;>
      first
      | (simp only [Bool.not_eq_true] at h1 h2 h3 h4
         simp [save_guard, h1, h2, h3, h4]
         done)
      | simp [no_effects] at h

/-- Witness for C10: a match against a placeholder name `P2` is skipped
with no writes, and a clean 1v1 match creates a match row with no skip
condition holding. -/
theorem claim_C10_save_guards_witness :
    (save_guard [⟨false, "MARIO", "P2", false, 1, 2, 0, true⟩] = true ∧
      save_match_stats true [⟨false, "MARIO", "P2", false, 1, 2, 0, true⟩] =
        (false, no_effects)) ∧
    ((save_match_stats true
        [⟨false, "MARIO", "alice", false, 1, 2, 0, true⟩,
         ⟨false, "LUIGI", "bob", false, 2, 1, 0, false⟩]).2.match_created = true ∧
      save_guard
        [⟨false, "MARIO", "alice", false, 1, 2, 0, true⟩,
         ⟨false, "LUIGI", "bob", false, 2, 1, 0, false⟩] = false) :=
  ⟨⟨by decide,
    (claim_C10_save_guards true [⟨false, "MARIO", "P2", false, 1, 2, 0, true⟩]).1
      (by decide)⟩,
   ⟨by decide,
    (claim_C10_save_guards true
        [⟨false, "MARIO", "alice", false, 1, 2, 0, true⟩,
         ⟨false, "LUIGI", "bob", false, 2, 1, 0, false⟩]).2 (by decide)⟩⟩

theorem qualifies_iff (c : Rat) :
    qualifies c = true ↔ game_end_confidence_threshold ≤ c := by
  constructor
  · intro h
    simp only [qualifies, Bool.and_eq_true, decide_eq_true_eq] at h
    exact h.1
  · intro h
    have h0 : (0 : Rat) < c :=
      lt_of_lt_of_le (by norm_num [game_end_confidence_threshold]) h
    simp only [qualifies, Bool.and_eq_true, decide_eq_true_eq]
    exact ⟨h, h0⟩

theorem scan_back_none_iff (l : List Rat) :
    scan_back l = none ↔ ∀ c ∈ l, qualifies c = false := by
  induction l with
  | nil => simp [scan_back]
  | cons s rest ih =>
    unfold scan_back
    cases hr : scan_back rest with
    | some k =>
      simp only [hr]
      constructor
      · intro h
        exact absurd h (by simp)
      · intro hall
        have hnone : scan_back rest = none :=
          ih.mpr fun c hc => hall c (List.mem_cons_of_mem s hc)
        rw [hr] at hnone
        exact absurd hnone (by simp)
    | none =>
      simp only [hr]
      constructor
      · intro h c hc
        rcases List.mem_cons.mp hc with rfl | hmem
        · by_contra hq
          rw [Bool.not_eq_false] at hq
          rw [if_pos hq] at h
          exact Option.some_ne_none _ h
        · exact (ih.mp hr) c hmem
      · intro hall
        have hq : qualifies s = false := hall s (List.mem_cons_self s rest)
        simp [hq]

theorem scan_back_some {l : List Rat} {i : Nat} (h : scan_back l = some i) :
    (∃ c, l.get? i = some c ∧ qualifies c = true) ∧
      ∀ j c, i < j → l.get? j = some c → qualifies c = false := by
  induction l generalizing i with
  | nil => simp [scan_back] at h
  | cons s rest ih =>
    unfold scan_back at h
    cases hr : scan_back rest with
    | some k =>
      rw [hr] at h
      have hik : i = k + 1 := by
        have := Option.some.inj h
        omega
      subst hik
      obtain ⟨⟨c, hc, hq⟩, hafter⟩ := ih hr
      refine ⟨⟨c, by simpa using hc, hq⟩, ?_⟩
      intro j d hj hd
      cases j with
      | zero => omega
      | succ j' =>
        simp only [List.get?_cons_succ] at hd
        exact hafter j' d (by omega) hd
    | none =>
      rw [hr] at h
      cases hq : qualifies s with
      | false =>
        rw [hq] at h
        simp at h
      | true =>
        rw [hq] at h
        simp only [if_true] at h
        have hi0 : i = 0 := by
          have := Option.some.inj h
          omega
        subst hi0
        refine ⟨⟨s, rfl, hq⟩, ?_⟩
        intro j d hj hd
        cases j with
        | zero => omega
        | succ j' =>
          simp only [List.get?_cons_succ] at hd
          exact (scan_back_none_iff rest).mp hr d (List.get?_mem hd)

/-- C2 (amended): the segment selector scans backward from the end and
selects as boundary the rightmost index whose score is at least the fixed
threshold 0.7 (the comparison is `>=`, so a score exactly equal to the
threshold qualifies) — not the global maximum; when the suffix from that
boundary to the end holds at least 15 samples it is returned, and if no
index qualifies the selector returns the not-found outcome. -/
theorem claim_C2_segment_selector {α : Type} (frames : List α)
    (scores : List Rat) (hlen : frames.length = scores.length) :
    (∀ i, scan_back scores = some i →
      (∃ c, scores.get? i = some c ∧ game_end_confidence_threshold ≤ c) ∧
      (∀ j c, i < j → scores.get? j = some c →
        c < game_end_confidence_threshold) ∧
      (15 ≤ frames.length - i →
        extract_result_screen frames scores = some (frames.drop i))) ∧
    (scan_back scores = none → extract_result_screen frames scores = none) := by
  constructor
  · intro i hsome
    obtain ⟨⟨c, hc, hq⟩, hafter⟩ := scan_back_some hsome
    refine ⟨⟨c, hc, (qualifies_iff c).mp hq⟩, ?_, ?_⟩
    · intro j d hj hd
      have hfalse := hafter j d hj hd
      by_contra hge
      rw [not_lt] at hge
      rw [(qualifies_iff d).mpr hge] at hfalse
      exact absurd hfalse (by simp)
    · intro h15
      have hs_ne : ¬scores.isEmpty = true := by
        intro hnil
        rw [List.isEmpty_iff] at hnil
        rw [hnil] at hsome
        simp [scan_back] at hsome
      have hf_ne : ¬frames.isEmpty = true := by
        intro hnil
        rw [List.isEmpty_iff] at hnil
        rw [hnil] at hlen
        have : scores = [] := List.length_eq_zero.mp hlen.symm
        rw [List.isEmpty_iff] at hs_ne
        exact hs_ne this
      unfold extract_result_screen
      rw [if_neg (by simp [hs_ne, hf_ne]), hsome]
      dsimp only
      rw [if_neg (by rw [List.length_drop]; omega)]
  · intro hnone
    unfold extract_result_screen
    by_cases he : (frames.isEmpty || scores.isEmpty) = true
    · rw [if_pos he]
    · rw [if_neg he, hnone]

/-- Witness for C2 at a synthetic window: a single qualifying score at
index 5 of 20 yields the boundary 5 with the 15-sample suffix returned, and
an all-zero score sequence yields the not-found outcome. -/
theorem claim_C2_segment_selector_witness :
    ((List.range 20).length =
        (List.replicate 5 (0 : Rat) ++ mkRat 8 10 :: List.replicate 14 0).length ∧
      scan_back
        (List.replicate 5 (0 : Rat) ++ mkRat 8 10 :: List.replicate 14 0) =
        some 5 ∧
      15 ≤ (List.range 20).length - 5 ∧
      extract_result_screen (List.range 20)
        (List.replicate 5 (0 : Rat) ++ mkRat 8 10 :: List.replicate 14 0) =
        some ((List.range 20).drop 5)) ∧
    (scan_back (List.replicate 20 (0 : Rat)) = none ∧
      extract_result_screen (List.range 20) (List.replicate 20 (0 : Rat)) = none) := by
  refine ⟨⟨by decide, by decide, by decide, ?_⟩, by decide, ?_⟩
  · exact ((claim_C2_segment_selector (List.range 20) _ (by decide)).1 5
      (by decide)).2.2 (by decide)
  · exact (claim_C2_segment_selector (List.range 20) _ (by decide)).2 (by decide)

/-- Counterexample to C2 as stated: with a score exactly equal to the
threshold 0.7 at index 0 and zeros elsewhere, no score strictly exceeds the
threshold, so the claimed rule ("score exceeds 0.7", strictly) demands the
not-found outcome — yet the code's `>=` comparison selects index 0 and
returns the whole window. -/
theorem claim_C2_counterexample :
    (∀ c ∈ mkRat 7 10 :: List.replicate 14 (0 : Rat),
      ¬(game_end_confidence_threshold < c)) ∧
    extract_result_screen (List.range 15)
      (mkRat 7 10 :: List.replicate 14 (0 : Rat)) = some (List.range 15) := by
  constructor
  · decide
  · decide

theorem video_outcome_detection_skip (b : VideoBehavior)
    (hr : b.raises = false) (he : b.extraction = none) :
    video_outcome false b = .skip := by
  unfold video_outcome batch_process_video
  simp [hr, he]

/-- C9 (amended): the two segment-detection failure modes are detected by
separate checks with distinct log messages, but both collapse to the same
sentinel return value (`None`) at the function interface: no qualifying
index and a qualifying suffix shorter than 15 samples each yield `none`;
in both cases `process_video` returns `False` and the batch summary counts
the file as skipped, not failed. -/
theorem claim_C9_detection_failures {α : Type} :
    (∀ (frames : List α) (scores : List Rat), scan_back scores = none →
      extract_result_screen frames scores = none) ∧
    (∀ (frames : List α) (scores : List Rat) (i : Nat),
      scan_back scores = some i → (frames.drop i).length < 15 →
      extract_result_screen frames scores = none) ∧
    (∀ b : VideoBehavior, b.raises = false → b.extraction = none →
      video_outcome false b = .skip) ∧
    (∀ (vids : List VideoBehavior) (b : VideoBehavior),
      b.raises = false → b.extraction = none →
      process_all false (vids ++ [b]) =
        ((process_all false vids).1, (process_all false vids).2.1 + 1,
          (process_all false vids).2.2)) := by
  refine ⟨?_, ?_, video_outcome_detection_skip, ?_⟩
  · intro frames scores hnone
    unfold extract_result_screen
    by_cases he : (frames.isEmpty || scores.isEmpty) = true
    · rw [if_pos he]
    · rw [if_neg he, hnone]
  · intro frames scores i hsome hlt
    unfold extract_result_screen
    by_cases he : (frames.isEmpty || scores.isEmpty) = true
    · rw [if_pos he]
    · rw [if_neg he, hsome]
      dsimp only
      rw [if_pos hlt]
  · intro vids b hr he
    have h3 := video_outcome_detection_skip b hr he
    simp [process_all, process_all_counts, List.foldl_append, h3]

/-- Witness for C9: a no-boundary window and a short-suffix window both
yield `none`, and a detection-failed file is tallied as skipped. -/
theorem claim_C9_detection_failures_witness :
    (scan_back [(0 : Rat)] = none ∧
      extract_result_screen [(0 : Nat)] [(0 : Rat)] = none) ∧
    (scan_back [(0 : Rat), 1] = some 1 ∧
      ((List.range 2).drop 1).length < 15 ∧
      extract_result_screen (List.range 2) [(0 : Rat), 1] = none) ∧
    ((⟨false, none, true, none, true⟩ : VideoBehavior).raises = false ∧
      video_outcome false ⟨false, none, true, none, true⟩ = .skip) ∧
    process_all false ([] ++ [⟨false, none, true, none, true⟩]) =
      ((process_all false []).1, (process_all false []).2.1 + 1,
        (process_all false []).2.2) := by
  refine ⟨⟨by decide, ?_⟩, ⟨by decide, by decide, ?_⟩, ⟨rfl, ?_⟩, ?_⟩
  · exact claim_C9_detection_failures.1 [(0 : Nat)] [(0 : Rat)] (by decide)
  · exact claim_C9_detection_failures.2.1 (List.range 2) [(0 : Rat), 1] 1
      (by decide) (by decide)
  · exact (claim_C9_detection_failures (α := Nat)).2.2.1
      ⟨false, none, true, none, true⟩ rfl rfl
  · exact (claim_C9_detection_failures (α := Nat)).2.2.2 [] ⟨false, none, true, none, true⟩ rfl rfl

/-- Counterexample to C9 as stated: a window with no qualifying index and a
window whose qualifying suffix is shorter than 15 samples produce the very
same outcome at the interface of `extract_result_screen` — both the Python
`(None, None, None)` — so the two failure modes are not distinguishable
there (only the log lines differ). -/
theorem claim_C9_counterexample :
    scan_back [(0 : Rat)] = none ∧
    scan_back [(0 : Rat), 1] = some 1 ∧
    ((List.range 2).drop 1).length < 15 ∧
    extract_result_screen [(0 : Nat)] [(0 : Rat)] =
      extract_result_screen (List.range 2) [(0 : Rat), 1] := by decide

theorem py_title_aux_length (l : List Char) :
    ∀ b : Bool, (py_title_aux b l).length = l.length := by
  induction l with
  | nil => intro b; rfl
  | cons c rest ih =>
    intro b
    unfold py_title_aux
    by_cases hc : c.isAlpha = true
    · rw [if_pos hc]
      simp [ih]
    · rw [if_neg hc]
      simp [ih]

theorem py_title_eq_empty_iff (s : String) : py_title s = "" ↔ s = "" := by
  constructor
  · intro h
    have hlen : (py_title s).data.length = 0 := by rw [h]; rfl
    have : s.data.length = 0 := by
      rw [show (py_title s).data = py_title_aux false s.data from rfl,
        py_title_aux_length] at hlen
      exact hlen
    cases s with
    | mk data =>
      cases data with
      | nil => rfl
      | cons c rest => simp at this
  · intro h
    rw [h]
    rfl

/-- C8 (amended): `build_title` derives the title deterministically from
the reconciled record, but the versus form is used for every match with at
least two participants — the first two are taken — not only for exactly
two: non-empty names and characters on the first two participants yield
"P1 (Char1) vs P2 (Char2) - Match #id" with title-cased character names,
while fewer than two participants or an empty name/character field fall
back to the timestamp-based title "Match #id - YYYY-MM-DD HH:MM". -/
theorem claim_C8_build_title :
    (∀ (id : Int) (p1 p2 : TitlePlayer) (rest : List TitlePlayer)
        (ts : PyDateTime),
      p1.name ≠ "" → p2.name ≠ "" → p1.character ≠ "" → p2.character ≠ "" →
      build_title id ⟨p1 :: p2 :: rest, ts⟩ =
        p1.name ++ " (" ++ py_title p1.character ++ ") vs " ++ p2.name ++
          " (" ++ py_title p2.character ++ ") - Match #" ++ toString id) ∧
    (∀ (id : Int) (players : List TitlePlayer) (ts : PyDateTime),
      players.length ≤ 1 →
      build_title id ⟨players, ts⟩ =
        "Match #" ++ toString id ++ " - " ++ strftime_ymdhm ts) ∧
    (∀ (id : Int) (p1 p2 : TitlePlayer) (rest : List TitlePlayer)
        (ts : PyDateTime),
      p1.name = "" ∨ p2.name = "" ∨ p1.character = "" ∨ p2.character = "" →
      build_title id ⟨p1 :: p2 :: rest, ts⟩ =
        "Match #" ++ toString id ++ " - " ++ strftime_ymdhm ts) := by
  refine ⟨?_, ?_, ?_⟩
  · intro id p1 p2 rest ts h1 h2 h3 h4
    have c1 : ¬py_title p1.character = "" :=
      fun hc => h3 ((py_title_eq_empty_iff _).mp hc)
    have c2 : ¬py_title p2.character = "" :=
      fun hc => h4 ((py_title_eq_empty_iff _).mp hc)
    simp [build_title, h1, h2, c1, c2]
  · intro id players ts hlen
    match players with
    | [] => simp [build_title, fallback_title]
    | [p] => simp [build_title, fallback_title]
    | p1 :: p2 :: rest => simp at hlen
  · intro id p1 p2 rest ts h
    unfold build_title
    rcases h with h | h | h | h
    · simp [h, fallback_title]
    · simp [h, fallback_title]
    · simp [(py_title_eq_empty_iff p1.character).mpr h, fallback_title]
    · simp [(py_title_eq_empty_iff p2.character).mpr h, fallback_title]

/-- Witness for C8: a two-participant match with full fields gets the
versus title, and a single-participant match falls back. -/
theorem claim_C8_build_title_witness :
    ((⟨"alice", "mario"⟩ : TitlePlayer).name ≠ "" ∧
      build_title 3 ⟨[⟨"alice", "mario"⟩, ⟨"bob", "luigi"⟩],
          ⟨2024, 1, 15, 14, 30, 52⟩⟩ =
        "alice (Mario) vs bob (Luigi) - Match #3") ∧
    (([⟨"alice", "mario"⟩] : List TitlePlayer).length ≤ 1 ∧
      build_title 3 ⟨[⟨"alice", "mario"⟩], ⟨2024, 1, 15, 14, 30, 52⟩⟩ =
        "Match #3 - 2024-01-15 14:30") ∧
    ((⟨"", "mario"⟩ : TitlePlayer).name = "" ∧
      build_title 3 ⟨[⟨"", "mario"⟩, ⟨"bob", "luigi"⟩],
          ⟨2024, 1, 15, 14, 30, 52⟩⟩ = "Match #3 - 2024-01-15 14:30") := by
  refine ⟨⟨by decide, ?_⟩, ⟨by decide, ?_⟩, ⟨rfl, ?_⟩⟩
  · have h := claim_C8_build_title.1 3 ⟨"alice", "mario"⟩ ⟨"bob", "luigi"⟩ []
      ⟨2024, 1, 15, 14, 30, 52⟩ (by decide) (by decide) (by decide) (by decide)
    rw [h]
    decide
  · have h := claim_C8_build_title.2.1 3 [⟨"alice", "mario"⟩]
      ⟨2024, 1, 15, 14, 30, 52⟩ (by decide)
    rw [h]
    decide
  · have h := claim_C8_build_title.2.2 3 ⟨"", "mario"⟩ ⟨"bob", "luigi"⟩ []
      ⟨2024, 1, 15, 14, 30, 52⟩ (Or.inl rfl)
    rw [h]
    decide

/-- Counterexample to C8 as stated: a match with three participants (not
exactly two) still receives the versus title built from the first two
players, not the timestamp-based fallback the claim prescribes for that
case. -/
theorem claim_C8_counterexample :
    ([⟨"A", "x"⟩, ⟨"B", "y"⟩, ⟨"C", "z"⟩] : List TitlePlayer).length = 3 ∧
    build_title 7 ⟨[⟨"A", "x"⟩, ⟨"B", "y"⟩, ⟨"C", "z"⟩],
        ⟨2024, 1, 15, 14, 30, 52⟩⟩ = "A (X) vs B (Y) - Match #7" ∧
    build_title 7 ⟨[⟨"A", "x"⟩, ⟨"B", "y"⟩, ⟨"C", "z"⟩],
        ⟨2024, 1, 15, 14, 30, 52⟩⟩ ≠
      "Match #7 - " ++ strftime_ymdhm ⟨2024, 1, 15, 14, 30, 52⟩ := by decide

/-- Modelled from the spec: the filename grammar
`{matchId}-{YYYYMMDD}_{HHMMSS}.<ext>` or `{YYYYMMDD}_{HHMMSS}.<ext>` — a
stem of one of the two digit shapes, a literal dot, and a nonempty
extension.  This definition follows the specification's words and exists
only to compare the claimed grammar with the code's parser. -/
def in_filename_grammar (l : List Char) : Bool :=
  (List.range l.length).any fun k =>
    decide (l.get? k = some '.') &&
    (pattern1_shape (l.take k) || is_ts_shape (l.take k)) &&
    !(l.drop (k + 1)).isEmpty

/-- C6 (amended): the parser maps `42-20240115_143052.mp4` to match id 42
and timestamp 2024-01-15T14:30:52, maps `20240115_143052.mp4` to a null
match id with the same timestamp, and returns `None` (file skipped) for
any filename whose residue after removing every occurrence of the
substring `.mp4` — not merely a trailing extension — matches neither digit
pattern, such as `notaname.mp4`. -/
theorem claim_C6_parse_filename :
    parse_filename "42-20240115_143052.mp4" =
      .parsed (some 42) ⟨2024, 1, 15, 14, 30, 52⟩ ∧
    parse_filename "20240115_143052.mp4" =
      .parsed none ⟨2024, 1, 15, 14, 30, 52⟩ ∧
    parse_filename "notaname.mp4" = .unparseable ∧
    (∀ filename : String,
      pattern1_shape (strip_mp4 filename.data) = false →
      is_ts_shape (strip_mp4 filename.data) = false →
      parse_filename filename = .unparseable) := by
  refine ⟨by decide, by decide, by decide, ?_⟩
  intro f h1 h2
  simp [parse_filename, h1, h2]

/-- Witness for C6: a filename matching neither digit pattern after the
`.mp4` removal is unparseable. -/
theorem claim_C6_parse_filename_witness :
    pattern1_shape (strip_mp4 "abc.mp4".data) = false ∧
    is_ts_shape (strip_mp4 "abc.mp4".data) = false ∧
    parse_filename "abc.mp4" = .unparseable :=
  ⟨by decide, by decide,
    claim_C6_parse_filename.2.2.2 "abc.mp4" (by decide) (by decide)⟩

/-- Counterexample to C6 as stated: `2024.mp40115_143052.mp4` matches
neither production of the claimed filename grammar (no stem of either
digit shape precedes its extension), yet the parser does not return the
unparseable outcome: `replace('.mp4', '')` removes the interior `.mp4` as
well, leaving `20240115_143052`, which parses as a bare timestamp. -/
theorem claim_C6_counterexample :
    in_filename_grammar "2024.mp40115_143052.mp4".data = false ∧
    parse_filename "2024.mp40115_143052.mp4" =
      .parsed none ⟨2024, 1, 15, 14, 30, 52⟩ ∧
    parse_filename "2024.mp40115_143052.mp4" ≠ .unparseable := by decide

theorem py_min_by_cons {α : Type} (key : α → Rat) (x y : α) (ys : List α) :
    py_min_by key x (y :: ys) =
      py_min_by key (if key y < key x then y else x) ys := rfl

theorem py_min_by_mem {α : Type} (key : α → Rat) (xs : List α) :
    ∀ x : α, py_min_by key x xs ∈ x :: xs := by
  induction xs with
  | nil =>
    intro x
    simp [py_min_by]
  | cons y ys ih =>
    intro x
    rw [py_min_by_cons]
    by_cases h : key y < key x
    · rw [if_pos h]
      exact List.mem_cons_of_mem x (ih y)
    · rw [if_neg h]
      rcases List.mem_cons.mp (ih x) with h' | h'
      · rw [h']
        exact List.mem_cons_self _ _
      · exact List.mem_cons_of_mem x (List.mem_cons_of_mem y h')

theorem py_min_by_le {α : Type} (key : α → Rat) (xs : List α) :
    ∀ x : α, ∀ z ∈ x :: xs, key (py_min_by key x xs) ≤ key z := by
  induction xs with
  | nil =>
    intro x z hz
    rcases List.mem_cons.mp hz with rfl | h
    · simp [py_min_by]
    · simp at h
  | cons y ys ih =>
    intro x z hz
    rw [py_min_by_cons]
    by_cases h : key y < key x
    · rw [if_pos h]
      rcases List.mem_cons.mp hz with hz0 | hz'
      · rw [hz0]
        exact le_trans (ih y y (List.mem_cons_self _ _)) (le_of_lt h)
      · rcases List.mem_cons.mp hz' with hz0 | hz''
        · rw [hz0]
          exact ih y y (List.mem_cons_self _ _)
        · exact ih y z (List.mem_cons_of_mem _ hz'')
    · rw [if_neg h]
      rcases List.mem_cons.mp hz with hz0 | hz'
      · rw [hz0]
        exact ih x x (List.mem_cons_self _ _)
      · rcases List.mem_cons.mp hz' with hz0 | hz''
        · rw [hz0]
          exact le_trans (ih x x (List.mem_cons_self _ _)) (not_lt.mp h)
        · exact ih x z (List.mem_cons_of_mem _ hz'')

theorem py_min_by_head {α : Type} (key : α → Rat) (xs : List α) :
    ∀ x : α, (∀ y ∈ xs, key x ≤ key y) → py_min_by key x xs = x := by
  induction xs with
  | nil =>
    intro x _
    rfl
  | cons y ys ih =>
    intro x h
    rw [py_min_by_cons, if_neg (not_lt.mpr (h y (List.mem_cons_self y ys)))]
    exact ih x fun z hz => h z (List.mem_cons_of_mem y hz)

/-- C5 (amended): for a tolerance-window query with multiple results, the
reconciler selects a record with minimal absolute time delta, but exact
ties are resolved by position in the query result order — Python `min`
keeps the earliest minimum — not by a fixed identifier rule, so the
selection depends on the order in which the store returns the rows. -/
theorem claim_C5_closest_match :
    (∀ (db : List MatchRow) (probe : Rat) (m : MatchRow),
      find_match_by_timestamp db probe = some m →
        m ∈ db ∧
        ∀ r ∈ db, probe - 5 ≤ r.created_at → r.created_at ≤ probe + 5 →
          |m.created_at - probe| ≤ |r.created_at - probe|) ∧
    (∀ (probe : Rat) (x : MatchRow) (rest : List MatchRow),
      (∀ r ∈ rest, |x.created_at - probe| ≤ |r.created_at - probe|) →
        py_min_by (fun r => |r.created_at - probe|) x rest = x) := by
  constructor
  · intro db probe m h
    unfold find_match_by_timestamp at h
    have hwin : ∀ r, r ∈ db → probe - 5 ≤ r.created_at →
        r.created_at ≤ probe + 5 →
        r ∈ db.filter (fun mm =>
          decide (probe - 5 ≤ mm.created_at) &&
            decide (mm.created_at ≤ probe + 5)) := by
      intro r hr h1 h2
      refine List.mem_filter.mpr ⟨hr, ?_⟩
      simp only [Bool.and_eq_true, decide_eq_true_eq]
      exact ⟨h1, h2⟩
    have hsub : db.filter (fun mm =>
        decide (probe - 5 ≤ mm.created_at) &&
          decide (mm.created_at ≤ probe + 5)) ⊆ db :=
      fun z hz => (List.mem_filter.mp hz).1
    rcases hc : db.filter (fun mm =>
        decide (probe - 5 ≤ mm.created_at) &&
          decide (mm.created_at ≤ probe + 5)) with _ | ⟨m0, tail⟩
    · rw [hc] at h
      simp at h
    · rcases tail with _ | ⟨m1, rs⟩
      · rw [hc] at h
        have hm : m0 = m := Option.some.inj h
        rw [hc] at hsub hwin
        constructor
        · refine hsub ?_
          rw [← hm]
          exact List.mem_cons_self m0 []
        · intro r hr h1 h2
          have hrmem := hwin r hr h1 h2
          simp only [List.mem_singleton] at hrmem
          rw [hrmem, ← hm]
      · rw [hc] at h
        have hm : py_min_by (fun r => |r.created_at - probe|) m0 (m1 :: rs) = m :=
          Option.some.inj h
        rw [hc] at hsub hwin
        constructor
        · have base := py_min_by_mem
            (fun r => |r.created_at - probe|) (m1 :: rs) m0
          rw [hm] at base
          exact hsub base
        · intro r hr h1 h2
          have hrmem := hwin r hr h1 h2
          have := py_min_by_le (fun r => |r.created_at - probe|)
            (m1 :: rs) m0 r hrmem
          rw [hm] at this
          exact this
  · intro probe x rest h
    refine py_min_by_head _ rest x ?_
    intro y hy
    exact h y hy

/-- Sample rows used to exercise the reconciler: both lie within the
five-second tolerance window of probe 0 and are equidistant from it. -/
def row_late : MatchRow := ⟨5, 3, none⟩

/-- Second sample row, three seconds before the probe, with a lower
identifier than `row_late`. -/
def row_early : MatchRow := ⟨2, -3, none⟩

/-- Single-row store used by the C5 witness. -/
def row_single : MatchRow := ⟨1, 3, none⟩

/-- Witness for C5: a single in-window record is selected and satisfies
the minimal-delta property, and a head record whose delta is minimal stays
selected by the `min` fold. -/
theorem claim_C5_closest_match_witness :
    (find_match_by_timestamp [row_single] 0 = some row_single ∧
      row_single ∈ [row_single] ∧
      (∀ r ∈ [row_single],
        (0 : Rat) - 5 ≤ r.created_at → r.created_at ≤ 0 + 5 →
          |row_single.created_at - 0| ≤ |r.created_at - 0|)) ∧
    ((∀ r ∈ [row_early], |row_single.created_at - (0 : Rat)| ≤ |r.created_at - 0|) ∧
      py_min_by (fun r => |r.created_at - (0 : Rat)|) row_single [row_early] =
        row_single) := by
  have hfind : find_match_by_timestamp [row_single] 0 = some row_single := by
    unfold find_match_by_timestamp
    have hf : List.filter (fun mm : MatchRow =>
        decide ((0 : Rat) - 5 ≤ mm.created_at) &&
          decide (mm.created_at ≤ 0 + 5)) [row_single] = [row_single] := by
      simp only [List.filter_cons, List.filter_nil]
      norm_num [row_single]
    rw [hf]
  have hkey : ∀ r ∈ [row_early],
      |row_single.created_at - (0 : Rat)| ≤ |r.created_at - 0| := by
    intro r hr
    simp only [List.mem_singleton] at hr
    rw [hr]
    norm_num [row_single, row_early]
  refine ⟨⟨hfind, ?_, ?_⟩, hkey, ?_⟩
  · exact (claim_C5_closest_match.1 [row_single] 0 row_single hfind).1
  · intro r hr h1 h2
    exact (claim_C5_closest_match.1 [row_single] 0 row_single hfind).2 r hr h1 h2
  · exact claim_C5_closest_match.2 0 row_single [row_early] hkey

/-- Counterexample to C5 as stated: `row_late` and `row_early` are
equidistant from probe 0, yet the reconciler returns whichever comes first
in the query result order — and in neither order does it pick the record
with the lowest identifier when that record comes second — so the
resolution is not permutation-invariant and no identifier tie-break is
applied. -/
theorem claim_C5_counterexample :
    |row_late.created_at - (0 : Rat)| = |row_early.created_at - 0| ∧
    find_match_by_timestamp [row_late, row_early] 0 = some row_late ∧
    find_match_by_timestamp [row_early, row_late] 0 = some row_early ∧
    row_late ≠ row_early ∧
    row_early.id < row_late.id := by
  have habs : |row_late.created_at - (0 : Rat)| = |row_early.created_at - 0| := by
    norm_num [row_late, row_early]
  have hfilter : ∀ a b : MatchRow, a.created_at = 3 ∨ a.created_at = -3 →
      b.created_at = 3 ∨ b.created_at = -3 →
      List.filter (fun mm : MatchRow =>
        decide ((0 : Rat) - 5 ≤ mm.created_at) &&
          decide (mm.created_at ≤ 0 + 5)) [a, b] = [a, b] := by
    intro a b ha hb
    simp only [List.filter_cons, List.filter_nil]
    rcases ha with ha | ha <;> rcases hb with hb | hb <;>
      norm_num [ha, hb]
  constructor
  · exact habs
  constructor
  · unfold find_match_by_timestamp
    rw [hfilter row_late row_early (Or.inl rfl) (Or.inr rfl)]
    refine congrArg some ?_
    refine py_min_by_head _ [row_early] row_late ?_
    intro y hy
    simp only [List.mem_singleton] at hy
    rw [hy]
    exact le_of_eq habs
  constructor
  · unfold find_match_by_timestamp
    rw [hfilter row_early row_late (Or.inr rfl) (Or.inl rfl)]
    refine congrArg some ?_
    refine py_min_by_head _ [row_late] row_early ?_
    intro y hy
    simp only [List.mem_singleton] at hy
    rw [hy]
    exact le_of_eq habs.symm
  constructor
  · intro h
    have := congrArg MatchRow.id h
    simp [row_late, row_early] at this
  · norm_num [row_late, row_early]

theorem youtube_url_of_ne_empty (vid : String) : youtube_url_of vid ≠ "" := by
  intro h
  have : (youtube_url_of vid).data.length = 0 := by rw [h]; rfl
  unfold youtube_url_of at this
  rw [String.data_append] at this
  simp at this

theorem find_by_id_of_mem {db : List MatchRow} {r : MatchRow}
    (hmem : r ∈ db) (hnd : (db.map (fun m => m.id)).Nodup) :
    db.find? (fun m => decide (m.id = r.id)) = some r := by
  induction db with
  | nil => simp at hmem
  | cons a t ih =>
    rw [List.find?_cons]
    by_cases ha : a.id = r.id
    · rcases List.mem_cons.mp hmem with h' | hrt
      · rw [h']
        simp
      · exfalso
        have hin : r.id ∈ t.map (fun m => m.id) :=
          List.mem_map_of_mem (fun m => m.id) hrt
        have hnotin : a.id ∉ t.map (fun m => m.id) :=
          (List.nodup_cons.mp hnd).1
        rw [ha] at hnotin
        exact hnotin hin
    · have hrt : r ∈ t := by
        rcases List.mem_cons.mp hmem with h' | hrt
        · exact absurd (congrArg MatchRow.id h'.symm) ha
        · exact hrt
      have hcond : decide (a.id = r.id) = false := by
        simp [ha]
      rw [hcond]
      exact ih hrt (List.nodup_cons.mp hnd).2

theorem find_match_by_timestamp_mem {db : List MatchRow} {probe : Rat}
    {m : MatchRow} (h : find_match_by_timestamp db probe = some m) : m ∈ db := by
  unfold find_match_by_timestamp at h
  have hsub : db.filter (fun mm =>
      decide (probe - 5 ≤ mm.created_at) &&
        decide (mm.created_at ≤ probe + 5)) ⊆ db :=
    fun z hz => (List.mem_filter.mp hz).1
  rcases hc : db.filter (fun mm =>
      decide (probe - 5 ≤ mm.created_at) &&
        decide (mm.created_at ≤ probe + 5)) with _ | ⟨m0, tail⟩
  · rw [hc] at h
    simp at h
  · rcases tail with _ | ⟨m1, rs⟩
    · rw [hc] at h
      have hm := Option.some.inj h
      rw [hc] at hsub
      refine hsub ?_
      rw [← hm]
      exact List.mem_cons_self m0 []
    · rw [hc] at h
      have hm : py_min_by (fun rr => |rr.created_at - probe|) m0 (m1 :: rs) = m :=
        Option.some.inj h
      rw [hc] at hsub
      have base := py_min_by_mem
        (fun rr => |rr.created_at - probe|) (m1 :: rs) m0
      rw [hm] at base
      exact hsub base

theorem filter_map_comm {α : Type} (p : α → Bool) (f : α → α)
    (hp : ∀ a, p (f a) = p a) (l : List α) :
    (l.map f).filter p = (l.filter p).map f := by
  induction l with
  | nil => rfl
  | cons a t ih =>
    simp only [List.map_cons, List.filter_cons, hp]
    by_cases h : p a = true
    · simp only [h, if_true, List.map_cons, ih]
    · simp only [Bool.not_eq_true] at h
      simp only [h, Bool.false_eq_true, if_false, ih]

theorem py_min_by_map {α : Type} (key : α → Rat) (f : α → α)
    (hf : ∀ a, key (f a) = key a) (xs : List α) :
    ∀ x : α, py_min_by key (f x) (xs.map f) = f (py_min_by key x xs) := by
  induction xs with
  | nil => intro x; rfl
  | cons y ys ih =>
    intro x
    rw [List.map_cons, py_min_by_cons, py_min_by_cons, hf, hf]
    by_cases h : key y < key x
    · rw [if_pos h, if_pos h]
      exact ih y
    · rw [if_neg h, if_neg h]
      exact ih x

theorem save_update_id (j : Int) (url : String) (m : MatchRow) :
    (if m.id = j then { m with youtube_url := some url } else m).id = m.id := by
  by_cases h : m.id = j <;> simp [h]

theorem save_youtube_url_ids (db : List MatchRow) (j : Int) (url : String) :
    (save_youtube_url db j url).map (fun m => m.id) = db.map (fun m => m.id) := by
  unfold save_youtube_url
  rw [List.map_map]
  congr 1
  funext m
  exact save_update_id j url m

theorem find?_id_save (db : List MatchRow) (i j : Int) (url : String) :
    (save_youtube_url db j url).find? (fun m => decide (m.id = i)) =
      (db.find? (fun m => decide (m.id = i))).map
        (fun m => if m.id = j then { m with youtube_url := some url } else m) := by
  unfold save_youtube_url
  rw [List.find?_map]
  have hfun : ((fun m : MatchRow => decide (m.id = i)) ∘
      (fun m => if m.id = j then { m with youtube_url := some url } else m)) =
      fun m : MatchRow => decide (m.id = i) := by
    funext m
    simp only [Function.comp]
    rw [save_update_id]
  rw [hfun]

theorem find_match_by_timestamp_save (db : List MatchRow) (probe : Rat)
    (j : Int) (url : String) :
    find_match_by_timestamp (save_youtube_url db j url) probe =
      (find_match_by_timestamp db probe).map
        (fun m => if m.id = j then { m with youtube_url := some url } else m) := by
  unfold find_match_by_timestamp save_youtube_url
  rw [filter_map_comm _ _ (fun a => by by_cases h : a.id = j <;> simp [h])]
  cases hfil : db.filter (fun mm =>
      decide (probe - 5 ≤ mm.created_at) &&
        decide (mm.created_at ≤ probe + 5)) with
  | nil => rfl
  | cons m0 tail =>
    cases tail with
    | nil => rfl
    | cons m1 rs =>
      simp only [List.map_cons, Option.map_some]
      refine congrArg some ?_
      have := py_min_by_map (fun rr => |rr.created_at - probe|)
        (fun m => if m.id = j then { m with youtube_url := some url } else m)
        (fun a => by by_cases h : a.id = j <;> simp [h]) (m1 :: rs) m0
      simpa using this

theorem resolve_record_save (db : List MatchRow) (mid : Option Int)
    (ts : PyDateTime) (j : Int) (url : String) (r : MatchRow)
    (hres : resolve_record db mid ts = some r) :
    resolve_record (save_youtube_url db j url) mid ts =
      some (if r.id = j then { r with youtube_url := some url } else r) := by
  cases mid with
  | some i =>
    unfold resolve_record at hres ⊢
    dsimp only at hres ⊢
    rw [find?_id_save, hres]
    rfl
  | none =>
    unfold resolve_record at hres ⊢
    dsimp only at hres ⊢
    rw [find_match_by_timestamp_save, hres]
    rfl

theorem bulk_run_shape (db : List MatchRow) (filename : String)
    (mid : Option Int) (ts : PyDateTime) (r : MatchRow) (ur : Option String)
    (dr : Bool) (hparse : parse_filename filename = .parsed mid ts)
    (hres : resolve_record db mid ts = some r) :
    bulk_process_video db filename ur dr true =
      (if (decide (mid.getD r.id ≠ 0) &&
          is_already_uploaded db (some (mid.getD r.id))) = true then
        (⟨0, db, false, false⟩ : BulkRun)
      else if dr then ⟨0, db, true, false⟩
      else
        match ur with
        | some vid =>
          ⟨1, save_youtube_url db (mid.getD r.id) (youtube_url_of vid),
            true, false⟩
        | none => ⟨1, db, false, false⟩) := by
  unfold bulk_process_video
  rw [hparse]
  cases mid with
  | some i =>
    dsimp only
    rw [hres]
    dsimp only [Option.getD]
    simp only [Bool.true_and]
  | none =>
    dsimp only
    rw [hres]
    dsimp only [Option.getD]
    simp only [Bool.true_and]

/-- C1 (amended): for every video file whose resolved match record has a
nonzero identifier and already carries a non-null, non-empty
`youtube_url`, re-running the pipeline performs zero upload calls and
leaves the store unchanged; and after a successful upload of such a file
the reference-write makes an immediate re-run perform zero upload calls —
re-running never duplicates an upload for a previously-succeeded match
with a nonzero identifier.  The nonzero restriction is forced by the
Python truthiness test `skip_uploaded and match_id and ...`, which skips
the already-uploaded check when the match id is 0. -/
theorem claim_C1_idempotent_skip (db : List MatchRow) (filename : String)
    (mid : Option Int) (ts : PyDateTime) (r : MatchRow) (u : String)
    (hnd : (db.map (fun m => m.id)).Nodup)
    (hparse : parse_filename filename = .parsed mid ts)
    (hres : resolve_record db mid ts = some r)
    (hid : mid.getD r.id ≠ 0) :
    (r.youtube_url = some u → u ≠ "" →
      ∀ (ur : Option String) (dr : Bool),
        bulk_process_video db filename ur dr true = ⟨0, db, false, false⟩) ∧
    (∀ (vid : String) (ur : Option String) (dr : Bool),
      (bulk_process_video db filename (some vid) false true).returned = true →
        bulk_process_video
            (bulk_process_video db filename (some vid) false true).db
            filename ur dr true =
          ⟨0, (bulk_process_video db filename (some vid) false true).db,
            false, false⟩) := by
  have hfind : db.find? (fun m => decide (m.id = mid.getD r.id)) = some r := by
    cases mid with
    | some i =>
      unfold resolve_record at hres
      dsimp only at hres ⊢
      exact hres
    | none =>
      unfold resolve_record at hres
      dsimp only at hres ⊢
      exact find_by_id_of_mem (find_match_by_timestamp_mem hres) hnd
  have hridr : r.id = mid.getD r.id := by
    have := List.find?_some hfind
    simpa using this
  constructor
  · intro hurl hu ur dr
    rw [bulk_run_shape db filename mid ts r ur dr hparse hres]
    have hup : is_already_uploaded db (some (mid.getD r.id)) = true := by
      unfold is_already_uploaded
      dsimp only
      rw [hfind]
      dsimp only
      rw [hurl]
      simp [hu]
    rw [if_pos (by simp [hid, hup])]
  · intro vid ur dr hret
    rw [bulk_run_shape db filename mid ts r (some vid) false hparse hres] at hret ⊢
    cases hcond : (decide (mid.getD r.id ≠ 0) &&
        is_already_uploaded db (some (mid.getD r.id))) with
    | true =>
      rw [hcond] at hret
      simp at hret
    | false =>
      rw [hcond] at hret
      simp only [Bool.false_eq_true, if_false] at hret ⊢
      have hres' := resolve_record_save db mid ts (mid.getD r.id)
        (youtube_url_of vid) r hres
      rw [if_pos hridr] at hres'
      rw [bulk_run_shape (save_youtube_url db (mid.getD r.id)
        (youtube_url_of vid)) filename mid ts
        ({ r with youtube_url := some (youtube_url_of vid) }) ur dr hparse hres']
      have hgetd : mid.getD ({ r with
          youtube_url := some (youtube_url_of vid) } : MatchRow).id =
          mid.getD r.id := rfl
      rw [hgetd]
      have hup' : is_already_uploaded
          (save_youtube_url db (mid.getD r.id) (youtube_url_of vid))
          (some (mid.getD r.id)) = true := by
        unfold is_already_uploaded
        dsimp only
        rw [find?_id_save, hfind]
        dsimp only [Option.map]
        rw [if_pos hridr]
        dsimp only
        simp [youtube_url_of_ne_empty]
      rw [if_pos (by simp [hid, hup'])]

/-- Store row with a nonzero identifier and a recorded upload, used by the
C1 witness. -/
def c1_row : MatchRow := ⟨1, 0, some "x"⟩

/-- Witness for C1: a file resolving to `c1_row` (id 1, reference "x") is
skipped with zero upload calls and an unchanged store. -/
theorem claim_C1_idempotent_skip_witness :
    (([c1_row].map (fun m => m.id)).Nodup ∧
      parse_filename "1-20240115_143052.mp4" =
        .parsed (some 1) ⟨2024, 1, 15, 14, 30, 52⟩ ∧
      resolve_record [c1_row] (some 1) ⟨2024, 1, 15, 14, 30, 52⟩ = some c1_row ∧
      (some (1 : Int)).getD c1_row.id ≠ 0 ∧
      c1_row.youtube_url = some "x" ∧ "x" ≠ "") ∧
    bulk_process_video [c1_row] "1-20240115_143052.mp4" none false true =
      ⟨0, [c1_row], false, false⟩ := by
  refine ⟨⟨by decide, by decide, by decide, by decide, rfl, by decide⟩, ?_⟩
  exact (claim_C1_idempotent_skip [c1_row] "1-20240115_143052.mp4" (some 1)
    ⟨2024, 1, 15, 14, 30, 52⟩ c1_row "x" (by decide) (by decide) (by decide)
    (by decide)).1 rfl (by decide) none false

/-- Store row with identifier 0 and a recorded upload, used by the C1
counterexample. -/
def c1_row_zero : MatchRow := ⟨0, 0, some "x"⟩

/-- Counterexample to C1 as stated: the match record resolved for
`0-20240115_143052.mp4` already carries the non-empty reference "x", yet
re-running performs one upload call and overwrites the persisted
reference, because the Python truthiness test `skip_uploaded and match_id
and ...` skips the already-uploaded check for match id 0. -/
theorem claim_C1_counterexample :
    is_already_uploaded [c1_row_zero] (some 0) = true ∧
    bulk_process_video [c1_row_zero] "0-20240115_143052.mp4" (some "abc")
        false true =
      ⟨1, [⟨0, 0, some (youtube_url_of "abc")⟩], true, false⟩ := by decide
